import Mathlib

/-!
Verification development for the Lutris v2 cascading configuration engine
(src/lutris/config2.py) and its legacy facade (src/lutris/config.py).

The Python code is shallowly embedded: dictionaries become association
lists over `String` keys, YAML values become the inductive `Val`,
exceptions become `Except PyErr`, and object mutation becomes explicit
state passing (a configuration chain is a list of `Level` records,
head = the most specific level, tail = the parent chain, mirroring
`CascadingConfig.parent`).

Function-valued option-definition entries (`getter`, `validate`,
`transform`) cannot be stored inside the configuration value itself
without a positivity violation, so definitions store opaque identifiers
(`GId`, `VId`, `TId`) and the operations are parametrised by environments
(`genv`, `venv`, `tenv`) mapping identifiers to the actual functions,
which still receive the configuration (`self`), the key and the value
exactly as in the source.
-/

/-- YAML-style values stored in a configuration's local store. -/
inductive Val : Type where
  | vnone : Val
  | int : Int → Val
  | str : String → Val
  | bool : Bool → Val
  | dict : List (String × Val) → Val

/-- A Python dict with string keys: an association list. -/
abbrev Store := List (String × Val)

/-- Dict lookup: `d[k]` as an `Option`. -/
def alookup {α : Type} : List (String × α) → String → Option α
  | [], _ => none
  | (k1, v1) :: t, k => if k1 = k then some v1 else alookup t k

/-- Dict assignment `d[k] = v`: replace the binding in place or append. -/
def aset {α : Type} : List (String × α) → String → α → List (String × α)
  | [], k, v => [(k, v)]
  | (k1, v1) :: t, k, v => if k1 = k then (k, v) :: t else (k1, v1) :: aset t k v

/-- Dict deletion `del d[k]`: remove the binding for `k`. -/
def aerase {α : Type} : List (String × α) → String → List (String × α)
  | [], _ => []
  | (k1, v1) :: t, k => if k1 = k then aerase t k else (k1, v1) :: aerase t k

@[simp] theorem alookup_nil {α : Type} (k : String) :
    alookup ([] : List (String × α)) k = none := rfl

theorem alookup_aset {α : Type} (l : List (String × α)) (k k1 : String) (v : α) :
    alookup (aset l k v) k1 = if k = k1 then some v else alookup l k1 := by
  induction l with
  | nil =>
    simp only [aset, alookup]
  | cons h t ih =>
    obtain ⟨kh, vh⟩ := h
    simp only [aset]
    by_cases hk : kh = k
    · subst hk
      simp only [if_pos rfl, alookup]
      by_cases h1 : kh = k1 <;> simp [h1]
    · rw [if_neg hk]
      simp only [alookup, ih]
      by_cases hk1 : k = k1
      · subst hk1
        rw [if_neg hk, if_pos rfl, if_pos rfl]
      · rw [if_neg hk1, if_neg hk1]

theorem alookup_aerase_self {α : Type} (l : List (String × α)) (k : String) :
    alookup (aerase l k) k = none := by
  induction l with
  | nil => rfl
  | cons h t ih =>
    obtain ⟨kh, vh⟩ := h
    simp only [aerase]
    by_cases hk : kh = k
    · rw [if_pos hk]; exact ih
    · rw [if_neg hk]
      simp only [alookup, if_neg hk]
      exact ih

theorem alookup_eq_none_of_not_mem {α : Type} (l : List (String × α)) (k : String)
    (h : k ∉ l.map Prod.fst) : alookup l k = none := by
  induction l with
  | nil => rfl
  | cons hd t ih =>
    obtain ⟨kh, vh⟩ := hd
    simp only [List.map, List.mem_cons] at h
    push_neg at h
    simp only [alookup]
    rw [if_neg (fun hh => h.1 hh.symm)]
    exact ih h.2

/-- Identifier of a custom `getter` function in the definition
(`fn(config, key) -> value`). -/
abbrev GId := Nat

/-- Identifier of a `validate` function (`fn(config, key, value) -> bool`). -/
abbrev VId := Nat

/-- Identifier of a `transform` function (`fn(config, key, value) -> value`). -/
abbrev TId := Nat

/-- One option definition, as documented on `CascadingConfig`: `default`,
`validate`, and at most one of `getter` / `cascade` / `transform`.
`cascade = some b` models presence of the `"cascade"` entry with truth
value `b` (the source tests `"cascade" in defn and defn["cascade"]`). -/
structure Defn where
  default : Option Val := none
  validate : Option VId := none
  getter : Option GId := none
  cascade : Option Bool := none
  transform : Option TId := none

/-- An option catalog: `makedef` output, an ordered dict from option name
to its definition. -/
abbrev Catalog := List (String × Defn)

/-- Entry of the special-getter cache built by `build_getter_cache`:
the bound function stored in the cache is either the user-supplied getter,
`cascade_getter` or `transform_getter`. -/
inductive SpecialGetter : Type where
  | custom : GId → SpecialGetter
  | cascadeG : SpecialGetter
  | transformG : SpecialGetter
deriving DecidableEq

/-- The object returned by `cascade_getter` and cached in
`cascade_cache`: either the raw nested dict (no parent) or a
`CascadingProxy` layering a nested dict over the parent's view. -/
inductive CasView : Type where
  | raw : Store → CasView
  | proxy : Store → CasView → CasView

/-- One level of a configuration chain: the attributes of one
`CascadingConfig` object. `self.config` is `cascade(self.data, parent)`:
when built, its local store is the same object as `self.data`
(`thisAliased = true`). `replace` on a parentless config breaks this
aliasing (only `self.data` is reassigned), which is tracked by
`thisAliased = false` together with the separated `thisStore`. -/
structure Level where
  definition : Catalog
  data : Store
  thisAliased : Bool
  thisStore : Store
  defaults : List (String × Val)
  validate_cache : List (String × VId)
  getter_cache : List (String × SpecialGetter)
  cascade_cache : List (String × CasView)

/-- A configuration chain: this level first, then the parent chain
(`CascadingConfig` together with its `parent` objects). `[]` is the
absent parent. -/
abbrev CC := List Level

/-- The store the `config` attribute reads and writes: `self.data` while
aliased, the separated old store after a parentless `replace`. -/
def Level.this (l : Level) : Store :=
  if l.thisAliased then l.data else l.thisStore

/-- Write back through the `config` attribute: mutates the object that
`config` designates (which is `self.data` while aliased). -/
def Level.setThis (l : Level) (s : Store) : Level :=
  if l.thisAliased then { l with data := s } else { l with thisStore := s }

/-- `CascadingConfig.build_definition_cache(name)`, generalised over the
selected field: start from the parent's cache (computed recursively over
the chain of catalogs, this level's catalog first in the list) and
overwrite with this catalog's entries that carry the field. -/
def build_definition_cache {α : Type} (f : Defn → Option α) : List Catalog → List (String × α)
  | [] => []
  | defs :: ps =>
    List.foldl
      (fun cache kv =>
        match f kv.2 with
        | some v => aset cache kv.1 v
        | none => cache)
      (build_definition_cache f ps) defs

/-- The `elif` chain of `build_getter_cache` classifying one definition:
`"getter" in defn`, else `"cascade" in defn and defn["cascade"]`, else
`"transform" in defn`. -/
def classify_getter (d : Defn) : Option SpecialGetter :=
  match d.getter with
  | some g => some (SpecialGetter.custom g)
  | none =>
    match d.cascade with
    | some true => some SpecialGetter.cascadeG
    | _ =>
      match d.transform with
      | some _ => some SpecialGetter.transformG
      | none => none

/-- `CascadingConfig.build_getter_cache`: the special-getter cache,
merged over the catalog chain like the definition caches. -/
def build_getter_cache (cats : List Catalog) : List (String × SpecialGetter) :=
  build_definition_cache classify_getter cats

/-- The level record built by `CascadingConfig.__init__(definition,
data, parent)`: empty store when `data is None`, `config =
cascade(self.data, parent)` (aliased in both cases), and the three
caches built once from the catalog chain. -/
def CascadingConfig.initLevel (definition : Catalog) (data : Option Store) (parent : CC) : Level :=
  { definition := definition
  , data := data.getD []
  , thisAliased := true
  , thisStore := []
  , defaults := build_definition_cache (fun d => d.default) (definition :: parent.map Level.definition)
  , validate_cache := build_definition_cache (fun d => d.validate) (definition :: parent.map Level.definition)
  , getter_cache := build_getter_cache (definition :: parent.map Level.definition)
  , cascade_cache := []
  }

/-- `CascadingConfig.__init__(definition, data, parent)`: the freshly
built level on top of its parent chain. -/
def CascadingConfig.init (definition : Catalog) (data : Option Store) (parent : CC) : CC :=
  CascadingConfig.initLevel definition data parent :: parent

/-- Python exceptions relevant to the engine: `KeyError` (the spec's
LookupMiss), `ValueError` (the spec's ValidationError), and the plain
`Exception` raised by the facade (the spec's ImmutableIdentifierError). -/
inductive PyErr : Type where
  | keyError : PyErr
  | valueError : PyErr
  | exception : PyErr
deriving DecidableEq

/-- `CascadingConfig.__contains__` / `CascadingProxy.__contains__`:
`key in self.config` is membership in the local store or, recursively,
in the parent configuration (for a parentless config, `config` is the
raw data dict). -/
def contains_ : CC → String → Bool
  | [], _ => false
  | lvl :: p, k => (alookup (Level.this lvl) k).isSome || contains_ p k

/-- One level of `CascadingConfig.cascade_getter(key)`, given the
parent's cascaded view (`none` when no parent exists): on a cache miss,
run `self.data.setdefault(key, {})`, wrap `self.data[key]` in a
`CascadingProxy` over the parent's view when a parent exists, cache the
view, and return it. A raw value that is not a dict is modelled as the
empty layer. -/
def cascade_level (lvl : Level) (p : CC) (k : String)
    (parentRes : Option (CasView × CC)) : CasView × CC :=
  match alookup lvl.cascade_cache k with
  | some cv => (cv, lvl :: p)
  | none =>
    let data2 : Store :=
      match alookup lvl.data k with
      | some _ => lvl.data
      | none => aset lvl.data k (Val.dict [])
    let d : Store :=
      match alookup data2 k with
      | some (Val.dict s) => s
      | some _ => []
      | none => []
    match parentRes with
    | none =>
      let cv := CasView.raw d
      (cv, [{ lvl with data := data2, cascade_cache := aset lvl.cascade_cache k cv }])
    | some (pv, p2) =>
      let cv := CasView.proxy d pv
      (cv, { lvl with data := data2, cascade_cache := aset lvl.cascade_cache k cv } :: p2)

/-- `CascadingConfig.cascade_getter(key)`: `cascade_level` at this
level, recursing into the parent's cascaded view of the same key (the
source spells the recursion `self.parent.get_cascade(key)`, see
`get_cascade` below). -/
def cascade_getter : CC → String → CasView × CC
  | [], _ => (CasView.raw [], [])
  | lvl :: p, k =>
    cascade_level lvl p k
      (match p with
       | [] => none
       | q :: qs => some (cascade_getter (q :: qs) k))

/-- Modelled from the spec: `get_cascade` is invoked on the parent by
`cascade_getter` but is defined nowhere under src/; per the spec's words
the parent's same nested subdict cascades "recursively, if the parent is
itself cascading", with the nested mapping created on first access and
cached per key, i.e. it is exactly the parent's `cascade_getter` view. -/
def get_cascade (c : CC) (k : String) : CasView × CC :=
  cascade_getter c k

/-- The objects a read can return: a plain value, or the cascading view
object produced by `cascade_getter`. -/
inductive RVal : Type where
  | val : Val → RVal
  | view : CasView → RVal

/-- Environment resolving custom getter ids: `fn(config, key) -> value`,
possibly raising. -/
abbrev GetterEnv := GId → CC → String → Except PyErr Val

/-- Environment resolving validator ids: `fn(config, key, value) -> bool`. -/
abbrev ValidateEnv := VId → CC → String → Val → Bool

/-- Environment resolving transform ids: `fn(config, key, value) -> value`. -/
abbrev TransformEnv := TId → CC → String → RVal → Val

section Operations

variable (genv : GetterEnv) (venv : ValidateEnv) (tenv : TransformEnv)

/-- The `except KeyError:` block of `CascadingConfig.__getitem__`: a
`KeyError` falls back to `self.defaults[key]` when present and is
re-raised otherwise; any other exception propagates. -/
def except_key_fallback (defaults : List (String × Val)) (k : String) (e : PyErr) : Except PyErr RVal :=
  match e with
  | PyErr.keyError =>
    match alookup defaults k with
    | some d => Except.ok (RVal.val d)
    | none => Except.error PyErr.keyError
  | e => Except.error e

/-- `self.config[key]` at one level, given the result `parentRes` of the
parent configuration's `__getitem__`: for a parentless config, `config`
is the raw data dict, which behaves exactly like a proxy whose parent
lookup raises `KeyError`, so the absent parent is passed as
`(KeyError, [])`. With a parent it is `CascadingProxy.__getitem__`:
local store first, else the parent configuration's own resolution (the
proxy's parent target is the parent `CascadingConfig` object). -/
def config_level (lvl : Level) (p : CC) (k : String)
    (parentRes : Except PyErr RVal × CC) : Except PyErr RVal × CC :=
  match alookup (Level.this lvl) k with
  | some v => (Except.ok (RVal.val v), lvl :: p)
  | none =>
    match parentRes with
    | (r, p2) => (r, lvl :: p2)

/-- One level of `CascadingConfig.__getitem__(key)`, given the parent
configuration's resolution result. -/
def getitem_level (lvl : Level) (p : CC) (k : String)
    (parentRes : Except PyErr RVal × CC) : Except PyErr RVal × CC :=
  match alookup lvl.getter_cache k with
  | some (SpecialGetter.custom g) =>
    match genv g (lvl :: p) k with
    | Except.ok v => (Except.ok (RVal.val v), lvl :: p)
    | Except.error e => (except_key_fallback lvl.defaults k e, lvl :: p)
  | some SpecialGetter.cascadeG =>
    match cascade_getter (lvl :: p) k with
    | (cv, c2) => (Except.ok (RVal.view cv), c2)
  | some SpecialGetter.transformG =>
    if contains_ (lvl :: p) k then
      match alookup lvl.definition k with
      | none => (except_key_fallback lvl.defaults k PyErr.keyError, lvl :: p)
      | some d0 =>
        match d0.transform with
        | none => (except_key_fallback lvl.defaults k PyErr.keyError, lvl :: p)
        | some t =>
          match config_level lvl p k parentRes with
          | (Except.ok raw, c2) => (Except.ok (RVal.val (tenv t c2 k raw)), c2)
          | (Except.error e, c2) => (except_key_fallback lvl.defaults k e, c2)
    else
      (Except.ok (RVal.val ((alookup lvl.defaults k).getD Val.vnone)), lvl :: p)
  | none =>
    match config_level lvl p k parentRes with
    | (Except.ok r, c2) => (Except.ok r, c2)
    | (Except.error e, c2) => (except_key_fallback lvl.defaults k e, c2)

/-- `CascadingConfig.__getitem__(key)`: the special-getter dispatch of
`getitem_level` at this level, delegating recursively along the parent
chain through `config_level`. -/
def getitem : CC → String → Except PyErr RVal × CC
  | [], _ => (Except.error PyErr.keyError, [])
  | lvl :: p, k =>
    getitem_level genv tenv lvl p k
      (match p with
       | [] => (Except.error PyErr.keyError, [])
       | q :: qs => getitem (q :: qs) k)

/-- `self.config[key]` as a standalone operation on a chain. -/
def config_getitem : CC → String → Except PyErr RVal × CC
  | [], _ => (Except.error PyErr.keyError, [])
  | lvl :: p, k =>
    config_level lvl p k
      (match p with
       | [] => (Except.error PyErr.keyError, [])
       | q :: qs => getitem genv tenv (q :: qs) k)

/-- `CascadingConfig.transform_getter(key)`: if the key is in the
cascade, apply `self.definition[key]["transform"]` (this level's catalog
entry) to `(self, key, self.config[key])`; otherwise return
`self.defaults.get(key, None)`. Looking up `self.definition[key]` or
its `"transform"` entry raises `KeyError` when absent. -/
def transform_getter : CC → String → Except PyErr RVal × CC
  | [], _ => (Except.error PyErr.keyError, [])
  | lvl :: p, k =>
    if contains_ (lvl :: p) k then
      match alookup lvl.definition k with
      | none => (Except.error PyErr.keyError, lvl :: p)
      | some d0 =>
        match d0.transform with
        | none => (Except.error PyErr.keyError, lvl :: p)
        | some t =>
          match config_getitem genv tenv (lvl :: p) k with
          | (Except.ok raw, c2) => (Except.ok (RVal.val (tenv t c2 k raw)), c2)
          | (Except.error e, c2) => (Except.error e, c2)
    else
      (Except.ok (RVal.val ((alookup lvl.defaults k).getD Val.vnone)), lvl :: p)

/-- Invocation `getter(self, key)` of a cached special getter. -/
def invoke_getter (g : SpecialGetter) (c : CC) (k : String) : Except PyErr RVal × CC :=
  match g with
  | SpecialGetter.custom gid =>
    match genv gid c k with
    | Except.ok v => (Except.ok (RVal.val v), c)
    | Except.error e => (Except.error e, c)
  | SpecialGetter.cascadeG =>
    match cascade_getter c k with
    | (cv, c2) => (Except.ok (RVal.view cv), c2)
  | SpecialGetter.transformG => transform_getter genv tenv c k

/-- The claim-side `try ... except KeyError` wrapper: pass a successful
result through, otherwise apply the default fallback. -/
def apply_default_fallback (defaults : List (String × Val)) (k : String)
    (r : Except PyErr RVal × CC) : Except PyErr RVal × CC :=
  match r with
  | (Except.ok v, c2) => (Except.ok v, c2)
  | (Except.error e, c2) => (except_key_fallback defaults k e, c2)

/-- Claim-side reading discipline, following the specification's words
for `read(name)`: a key with an entry in the special-getter cache
invokes the getter with default fallback on LookupMiss; otherwise the
read delegates to the cascading proxy over the local store and parent
chain, with the same fallback. -/
def read_spec : CC → String → Except PyErr RVal × CC
  | [], _ => (Except.error PyErr.keyError, [])
  | lvl :: p, k =>
    match alookup lvl.getter_cache k with
    | some g => apply_default_fallback lvl.defaults k (invoke_getter genv tenv g (lvl :: p) k)
    | none => apply_default_fallback lvl.defaults k (config_getitem genv tenv (lvl :: p) k)

/-- `CascadingConfig.__setitem__(key, value)`: a validator found in the
cache that returns false raises `ValueError` and stores nothing;
otherwise `self.config[key] = value` writes the local store only. -/
def setitem (c : CC) (k : String) (v : Val) : Except PyErr CC :=
  match c with
  | [] => Except.error PyErr.keyError
  | lvl :: p =>
    match alookup lvl.validate_cache k with
    | some vid =>
      if venv vid (lvl :: p) k v then
        Except.ok (Level.setThis lvl (aset (Level.this lvl) k v) :: p)
      else
        Except.error PyErr.valueError
    | none => Except.ok (Level.setThis lvl (aset (Level.this lvl) k v) :: p)

/-- `CascadingConfig.__delitem__` / `CascadingProxy.__delitem__`:
`del self.config[key]` removes the key from the local store only,
raising `KeyError` when it is not locally present. -/
def delitem (c : CC) (k : String) : Except PyErr CC :=
  match c with
  | [] => Except.error PyErr.keyError
  | lvl :: p =>
    if (alookup (Level.this lvl) k).isSome then
      Except.ok (Level.setThis lvl (aerase (Level.this lvl) k) :: p)
    else
      Except.error PyErr.keyError

/-- `CascadingConfig.replace(other)`: `self.data = other`, and only when
a parent exists is `self.config.this` repointed to the new store; for a
parentless config the `config` attribute keeps designating the old data
dict, which is recorded by breaking the aliasing. -/
def replace (c : CC) (other : Store) : CC :=
  match c with
  | [] => []
  | lvl :: p =>
    match p with
    | [] => [{ lvl with data := other, thisAliased := false, thisStore := Level.this lvl }]
    | _ :: _ => { lvl with data := other, thisAliased := true, thisStore := [] } :: p

end Operations

/-- Claim-side view of the raw cascade: the first store (this level
first, then ancestors) that binds the key. -/
def chainThisLookup : CC → String → Option Val
  | [], _ => none
  | lvl :: p, k =>
    match alookup (Level.this lvl) k with
    | some v => some v
    | none => chainThisLookup p k

/-- Claim-side view of the default fallback performed by the chained
`__getitem__` calls: the root-most level whose merged defaults cache
binds the key wins, because each level's fallback runs inside the
parent delegation before this level's own `except` clause. -/
def defaultsFromRoot : CC → String → Option Val
  | [], _ => none
  | lvl :: p, k =>
    match defaultsFromRoot p k with
    | some d => some d
    | none => alookup lvl.defaults k

/-- Claim-side resolution of a key none of whose definitions carry a
special getter: the cascaded store value, else the default fallback,
else LookupMiss. -/
def resolvePlain (c : CC) (k : String) : Except PyErr RVal :=
  match chainThisLookup c k with
  | some v => Except.ok (RVal.val v)
  | none =>
    match defaultsFromRoot c k with
    | some d => Except.ok (RVal.val d)
    | none => Except.error PyErr.keyError

theorem contains_eq_isSome (c : CC) (k : String) :
    contains_ c k = (chainThisLookup c k).isSome := by
  induction c with
  | nil => rfl
  | cons lvl p ih =>
    simp only [contains_, chainThisLookup]
    cases hv : alookup (Level.this lvl) k <;> simp [ih]

theorem getitem_parentless (genv : GetterEnv) (tenv : TransformEnv) (lvl : Level) (k : String) :
    getitem genv tenv [lvl] k
      = getitem_level genv tenv lvl [] k (Except.error PyErr.keyError, []) := rfl

theorem getitem_parented (genv : GetterEnv) (tenv : TransformEnv) (lvl q : Level) (qs : CC) (k : String) :
    getitem genv tenv (lvl :: q :: qs) k
      = getitem_level genv tenv lvl (q :: qs) k (getitem genv tenv (q :: qs) k) := rfl

theorem config_getitem_parentless (genv : GetterEnv) (tenv : TransformEnv) (lvl : Level) (k : String) :
    config_getitem genv tenv [lvl] k
      = config_level lvl [] k (Except.error PyErr.keyError, []) := rfl

theorem config_getitem_parented (genv : GetterEnv) (tenv : TransformEnv) (lvl q : Level) (qs : CC) (k : String) :
    config_getitem genv tenv (lvl :: q :: qs) k
      = config_level lvl (q :: qs) k (getitem genv tenv (q :: qs) k) := rfl

theorem resolvePlain_error (c : CC) (k : String) (e : PyErr)
    (h : resolvePlain c k = Except.error e) : e = PyErr.keyError := by
  unfold resolvePlain at h
  cases hc : chainThisLookup c k with
  | some v => rw [hc] at h; cases h
  | none =>
    rw [hc] at h
    cases hd : defaultsFromRoot c k with
    | some d => rw [hd] at h; cases h
    | none => rw [hd] at h; cases h; rfl

theorem resolvePlain_cons (lvl : Level) (p : CC) (k : String) :
    resolvePlain (lvl :: p) k =
      match alookup (Level.this lvl) k with
      | some v => Except.ok (RVal.val v)
      | none =>
        match resolvePlain p k with
        | Except.ok r => Except.ok r
        | Except.error _ =>
          match alookup lvl.defaults k with
          | some d => Except.ok (RVal.val d)
          | none => Except.error PyErr.keyError := by
  unfold resolvePlain
  simp only [chainThisLookup, defaultsFromRoot]
  cases hv : alookup (Level.this lvl) k with
  | some v => simp
  | none =>
    simp only []
    cases hc : chainThisLookup p k with
    | some v => simp [hc]
    | none =>
      simp only [hc]
      cases hd : defaultsFromRoot p k with
      | some d => simp [hd]
      | none => simp [hd]

theorem getitem_plain (genv : GetterEnv) (tenv : TransformEnv) (c : CC) (k : String)
    (h : ∀ l ∈ c, alookup l.getter_cache k = none) :
    getitem genv tenv c k = (resolvePlain c k, c) := by
  induction c with
  | nil => rfl
  | cons lvl p ih =>
    have hg : alookup lvl.getter_cache k = none := h lvl (List.mem_cons_self lvl p)
    have hp : ∀ l ∈ p, alookup l.getter_cache k = none :=
      fun l hl => h l (List.mem_cons_of_mem lvl hl)
    rw [resolvePlain_cons]
    cases p with
    | nil =>
      rw [getitem_parentless]
      simp only [getitem_level, hg, config_level]
      cases hv : alookup (Level.this lvl) k with
      | some v => simp [hv]
      | none =>
        simp only [hv, resolvePlain, chainThisLookup, defaultsFromRoot, except_key_fallback]
    | cons q qs =>
      rw [getitem_parented, ih hp]
      simp only [getitem_level, hg, config_level]
      cases hv : alookup (Level.this lvl) k with
      | some v => simp [hv]
      | none =>
        simp only [hv]
        cases hr : resolvePlain (q :: qs) k with
        | ok r => simp [hr]
        | error e =>
          have he : e = PyErr.keyError := resolvePlain_error (q :: qs) k e hr
          subst he
          simp only [hr, except_key_fallback]

/-- C1. For every key, reading through the Cascading Config
(`__getitem__`): a key with an entry in the special-getter cache has the
getter invoked, a getter invocation failing with LookupMiss (KeyError)
falls back to `defaults[key]` when a default exists and re-raises the
LookupMiss otherwise; a key with no special getter delegates to the
cascading proxy over the local store and the parent chain, with the same
default fallback on miss. Stated as: `__getitem__` coincides with the
claim-side dispatch `read_spec` built from `invoke_getter`,
`config_getitem` and the default-fallback wrapper. -/
theorem c1_getitem_dispatch (genv : GetterEnv) (tenv : TransformEnv) (c : CC) (k : String) :
    getitem genv tenv c k = read_spec genv tenv c k := by
  cases c with
  | nil => rfl
  | cons lvl p =>
    obtain ⟨PR, hgi, hcg⟩ :
        ∃ PR, getitem genv tenv (lvl :: p) k = getitem_level genv tenv lvl p k PR ∧
          config_getitem genv tenv (lvl :: p) k = config_level lvl p k PR := by
      cases p with
      | nil => exact ⟨(Except.error PyErr.keyError, []), rfl, rfl⟩
      | cons q qs => exact ⟨getitem genv tenv (q :: qs) k, rfl, rfl⟩
    rw [hgi]
    simp only [read_spec, invoke_getter, transform_getter, hcg, getitem_level]
    cases hg : alookup lvl.getter_cache k with
    | none =>
      cases hcl : config_level lvl p k PR with
      | mk r c2 => cases r <;> simp [hcl, apply_default_fallback]
    | some g =>
      cases g with
      | custom gid =>
        cases hv : genv gid (lvl :: p) k <;> simp [hv, apply_default_fallback]
      | cascadeG =>
        cases hcas : cascade_getter (lvl :: p) k with
        | mk cv c2 => simp [hcas, apply_default_fallback]
      | transformG =>
        cases hco : contains_ (lvl :: p) k with
        | false => simp [hco, apply_default_fallback]
        | true =>
          cases hdef : alookup lvl.definition k with
          | none => simp [hco, hdef, apply_default_fallback]
          | some d0 =>
            cases htr : d0.transform with
            | none => simp [hco, hdef, htr, apply_default_fallback]
            | some t =>
              cases hcl : config_level lvl p k PR with
              | mk r c2 =>
                cases r <;> simp [hco, hdef, htr, hcl, apply_default_fallback]

theorem Level.this_setThis (l : Level) (s : Store) :
    Level.this (Level.setThis l s) = s := by
  unfold Level.this Level.setThis
  cases h : l.thisAliased <;> simp [h]

theorem Level.getter_cache_setThis (l : Level) (s : Store) :
    (Level.setThis l s).getter_cache = l.getter_cache := by
  unfold Level.setThis
  cases h : l.thisAliased <;> simp [h]

theorem Level.data_setThis_aliased (l : Level) (s : Store) (h : l.thisAliased = true) :
    (Level.setThis l s).data = s := by
  unfold Level.setThis
  simp [h]

theorem chainThisLookup_none (c : CC) (k : String)
    (h : ∀ l ∈ c, alookup (Level.this l) k = none) :
    chainThisLookup c k = none := by
  induction c with
  | nil => rfl
  | cons lvl p ih =>
    have h1 := h lvl (List.mem_cons_self lvl p)
    simp only [chainThisLookup, h1]
    exact ih (fun l hl => h l (List.mem_cons_of_mem lvl hl))

/-- C2. Writing through `__setitem__`: a validator found in the merged
validator cache (i.e. registered for the key by the deepest catalog in
the definition chain that carries one) that returns false makes the
write fail with ValidationError (`ValueError`) and no state is produced;
when no cached validator rejects, the value is written to this level's
local store only and the ancestor levels are returned unchanged. -/
theorem c2_setitem_validation (venv : ValidateEnv) (lvl : Level) (p : CC) (k : String) (v : Val) :
    (∀ vid, alookup lvl.validate_cache k = some vid → venv vid (lvl :: p) k v = false →
        setitem venv (lvl :: p) k v = Except.error PyErr.valueError) ∧
    ((alookup lvl.validate_cache k = none ∨
        ∃ vid, alookup lvl.validate_cache k = some vid ∧ venv vid (lvl :: p) k v = true) →
      setitem venv (lvl :: p) k v
        = Except.ok (Level.setThis lvl (aset (Level.this lvl) k v) :: p)) := by
  constructor
  · intro vid hvid hfalse
    simp [setitem, hvid, hfalse]
  · rintro (hnone | ⟨vid, hvid, htrue⟩)
    · simp [setitem, hnone]
    · simp [setitem, hvid, htrue]

/-- C6. Deletion through `__delitem__` is local-only: it fails with
LookupMiss when the key is not locally present (whatever the parent
holds), removes only the local binding otherwise, and, for a key without
special getters that shadows a parent value, a subsequent read after the
deletion re-exposes the parent's value. -/
theorem c6_delete_local (genv : GetterEnv) (tenv : TransformEnv) (lvl : Level) (p : CC) (k : String) :
    (alookup (Level.this lvl) k = none → delitem (lvl :: p) k = Except.error PyErr.keyError) ∧
    ((alookup (Level.this lvl) k).isSome = true →
        delitem (lvl :: p) k = Except.ok (Level.setThis lvl (aerase (Level.this lvl) k) :: p)) ∧
    (∀ w, (alookup (Level.this lvl) k).isSome = true →
        chainThisLookup p k = some w →
        (∀ l ∈ lvl :: p, alookup l.getter_cache k = none) →
        getitem genv tenv (Level.setThis lvl (aerase (Level.this lvl) k) :: p) k
          = (Except.ok (RVal.val w), Level.setThis lvl (aerase (Level.this lvl) k) :: p)) := by
  refine ⟨?_, ?_, ?_⟩
  · intro h
    simp [delitem, h]
  · intro h
    simp only [delitem, h, if_pos]
  · intro w hsome hw hgetter
    have hget2 : ∀ l ∈ Level.setThis lvl (aerase (Level.this lvl) k) :: p,
        alookup l.getter_cache k = none := by
      intro l hl
      rcases List.mem_cons.mp hl with h | h
      · subst h
        rw [Level.getter_cache_setThis]
        exact hgetter lvl (List.mem_cons_self lvl p)
      · exact hgetter l (List.mem_cons_of_mem lvl h)
    rw [getitem_plain genv tenv _ k hget2]
    have hres : resolvePlain (Level.setThis lvl (aerase (Level.this lvl) k) :: p) k
        = Except.ok (RVal.val w) := by
      unfold resolvePlain
      have hchain : chainThisLookup (Level.setThis lvl (aerase (Level.this lvl) k) :: p) k
          = some w := by
        simp only [chainThisLookup, Level.this_setThis, alookup_aerase_self, hw]
      rw [hchain]
    rw [hres]

/-- C5 evidence (code bug): a parentless config with local store
`{a: 1}`; after `replace({a: 2})` the `data` attribute holds the new
store (so `save` would write it) but the `config` attribute still
designates the old dict, so a read of `a` returns the stale `1` rather
than `2`. -/
def ccRepl : CC :=
  replace (CascadingConfig.init [] (some [("a", Val.int 1)]) []) [("a", Val.int 2)]

/-- Environment for witnesses: every custom getter misses. -/
def genvMiss : GetterEnv := fun _ _ _ => Except.error PyErr.keyError

/-- Environment for witnesses: validator 0 accepts only nonnegative ints. -/
def venvNonneg : ValidateEnv := fun _ _ _ v =>
  match v with
  | Val.int n => decide (0 ≤ n)
  | _ => true

/-- Environment for witnesses: transform 0 increments an int raw value. -/
def tenvSucc : TransformEnv := fun _ _ _ r =>
  match r with
  | RVal.val (Val.int n) => Val.int (n + 1)
  | _ => Val.vnone

/-- C5. `replace` on a parentless config leaves every subsequent read
resolving against the old store (the claim says reads must resolve
against the new mapping): the read of `a` still yields 1 while the
swapped `data` holds 2. -/
theorem c5_replace_code_bug :
    (getitem genvMiss tenvSucc ccRepl "a").1 = Except.ok (RVal.val (Val.int 1)) ∧
    ccRepl.head?.map Level.data = some [("a", Val.int 2)] ∧
    (getitem genvMiss tenvSucc ccRepl "a").1 ≠ Except.ok (RVal.val (Val.int 2)) := by
  refine ⟨rfl, rfl, ?_⟩
  intro h
  have h0 : (getitem genvMiss tenvSucc ccRepl "a").1 = Except.ok (RVal.val (Val.int 1)) := rfl
  rw [h0] at h
  simp at h

section Persistence

-- The filesystem as seen through os.path.exists plus _load_file:
-- some store for a present, parseable file, none for a missing one.
variable (fs : String → Option Store)

/-- A `ConfigFile` object: the fixed backing filename plus the
configuration state. -/
structure ConfigFileS where
  filename : String
  cc : CC

/-- `ConfigFile.__init__(definition, filename, parent, data)`: when no
data is passed and the file exists its content is loaded, otherwise the
passed (or absent) data goes to `CascadingConfig.__init__` unchanged. -/
def ConfigFile.init (definition : Catalog) (filename : String) (parent : CC)
    (data : Option Store) : ConfigFileS :=
  { filename := filename
  , cc := CascadingConfig.init definition
      (match data with
       | some d => some d
       | none => fs filename) parent }

/-- C9. Constructing a file-backed config for a path whose file does not
exist yields an empty local store rather than an error, for every
definition and parent. -/
theorem c9_missing_file_empty_store (definition : Catalog) (filename : String) (parent : CC)
    (hfs : fs filename = none) :
    (ConfigFile.init fs definition filename parent none).cc
      = CascadingConfig.init definition none parent ∧
    ∃ lvl, (ConfigFile.init fs definition filename parent none).cc = lvl :: parent ∧
      lvl.data = [] := by
  have h1 : (ConfigFile.init fs definition filename parent none).cc
      = CascadingConfig.init definition none parent := by
    simp [ConfigFile.init, hfs]
  refine ⟨h1, ?_⟩
  rw [h1]
  exact ⟨_, rfl, rfl⟩

end Persistence

section Facade

variable (fs : String → Option Store)

/-- Sentinel id for games that have not been created yet. -/
def TEMP_CONFIG : String := "TEMP_CONFIG"

/-- A `GameConfig` object: the persistent id, its derived backing
filename under `games/`, and the configuration state. -/
structure GameConfigS where
  game_config_id : String
  filename : String
  cc : CC

/-- `GameConfig.__init__(game_config_id, options, parent, data,
definition)` with an explicit definition (the `assign_id` path): a
`ConfigFile` at `games/<id>.yml`. -/
def GameConfig.init (game_config_id : String) (definition : Catalog) (parent : CC)
    (data : Option Store) : GameConfigS :=
  { game_config_id := game_config_id
  , filename := "games/" ++ game_config_id ++ ".yml"
  , cc := (ConfigFile.init fs definition ("games/" ++ game_config_id ++ ".yml")
      parent data).cc }

/-- `TempGameConfig.__init__(options, parent)`: a plain
`CascadingConfig` with no data. -/
def TempGameConfig.init (definition : Catalog) (parent : CC) : CC :=
  CascadingConfig.init definition none parent

/-- `TempGameConfig.assign_id(game_config_id)`: build a `GameConfig`
with this config's definition, local data and parent. -/
def TempGameConfig.assign_id (c : CC) (gid : String) : GameConfigS :=
  match c with
  | [] => GameConfig.init fs gid [] [] (some [])
  | lvl :: p => GameConfig.init fs gid lvl.definition p (some lvl.data)

/-- The game level held by the `LutrisConfig` facade: a
`TempGameConfig` or a promoted `GameConfig`. -/
inductive GameLevelS : Type where
  | temp : CC → GameLevelS
  | perm : GameConfigS → GameLevelS

/-- The slice of the `LutrisConfig` facade relevant to promotion: the
private `_game_config_id` and the game level it exposes. -/
structure LutrisConfigS where
  game_config_id : Option String
  game_level : GameLevelS

/-- The `game_config_id` property setter of `LutrisConfig`: only a
facade still holding the temp sentinel may be assigned an id, by
promoting its `TempGameConfig` through `assign_id`; any other assignment
raises (`Exception: Cannot change game_config_id later`). A facade whose
`game_level` is already a `GameConfig` while the sentinel is still set
would hit a missing `assign_id` attribute, modelled as the same error. -/
def LutrisConfig.set_game_config_id (lc : LutrisConfigS) (value : String) :
    Except PyErr LutrisConfigS :=
  if lc.game_config_id = some TEMP_CONFIG then
    match lc.game_level with
    | GameLevelS.temp c =>
      Except.ok { game_config_id := some value
                , game_level := GameLevelS.perm (TempGameConfig.assign_id fs c value) }
    | GameLevelS.perm _ => Except.error PyErr.exception
  else
    Except.error PyErr.exception

/-- C8. Promoting a TempGame by assigning a permanent identifier for the
first time yields a Game-level config preserving the previously set
local values, the definition and the parent of the TempGame; any later
re-assignment on the same facade fails with ImmutableIdentifierError
(the facade's `Exception`) instead of being silently ignored. -/
theorem c8_promotion (lvl : Level) (p : CC) (lc : LutrisConfigS) (v v2 : String)
    (h1 : lc.game_config_id = some TEMP_CONFIG)
    (h2 : lc.game_level = GameLevelS.temp (lvl :: p))
    (hv : v ≠ TEMP_CONFIG) :
    ∃ g : GameConfigS,
      LutrisConfig.set_game_config_id fs lc v
        = Except.ok { game_config_id := some v, game_level := GameLevelS.perm g } ∧
      g.game_config_id = v ∧
      g.cc = CascadingConfig.init lvl.definition (some lvl.data) p ∧
      LutrisConfig.set_game_config_id fs
          { game_config_id := some v, game_level := GameLevelS.perm g } v2
        = Except.error PyErr.exception := by
  refine ⟨TempGameConfig.assign_id fs (lvl :: p) v, ?_, rfl, rfl, ?_⟩
  · simp [LutrisConfig.set_game_config_id, h1, h2]
  · simp [LutrisConfig.set_game_config_id, hv]

end Facade

theorem alookup_foldl_defs {α : Type} (f : Defn → Option α) (cat : Catalog)
    (cache : List (String × α)) (n : String) (hnd : (cat.map Prod.fst).Nodup) :
    alookup (List.foldl (fun cache kv =>
        match f kv.2 with
        | some v => aset cache kv.1 v
        | none => cache) cache cat) n
      = match (alookup cat n).bind f with
        | some v => some v
        | none => alookup cache n := by
  induction cat generalizing cache with
  | nil => simp [alookup]
  | cons kv t ih =>
    obtain ⟨k0, d0⟩ := kv
    have hnd2 : (t.map Prod.fst).Nodup := by
      simp only [List.map, List.nodup_cons] at hnd
      exact hnd.2
    have hk0 : k0 ∉ t.map Prod.fst := by
      simp only [List.map, List.nodup_cons] at hnd
      exact hnd.1
    simp only [List.foldl]
    rw [ih _ hnd2]
    by_cases hk : k0 = n
    · subst hk
      have ht : alookup t k0 = none := alookup_eq_none_of_not_mem t k0 hk0
      simp only [alookup, if_pos rfl, ht, Option.none_bind, Option.some_bind]
      cases hf : f d0 with
      | some v => simp [alookup_aset, hf]
      | none => simp [hf]
    · simp only [alookup, if_neg hk]
      cases hf : f d0 with
      | some v => simp [alookup_aset, hk, hf]
      | none => simp [hf]

theorem build_definition_cache_spec {α : Type} (f : Defn → Option α) (cats : List Catalog)
    (n : String) (hnd : ∀ cat ∈ cats, (cat.map Prod.fst).Nodup) :
    alookup (build_definition_cache f cats) n
      = cats.findSome? (fun cat => (alookup cat n).bind f) := by
  induction cats with
  | nil => rfl
  | cons cat ps ih =>
    simp only [build_definition_cache]
    rw [alookup_foldl_defs f cat _ n (hnd cat (List.mem_cons_self cat ps))]
    rw [ih (fun c hc => hnd c (List.mem_cons_of_mem cat hc))]
    cases h : (alookup cat n).bind f <;> simp [List.findSome?, h]

/-- C7. The defaults, validator and special-getter caches are built once
at construction by merging the catalogs root-first with this level's
catalog last, so that for every name the cached entry is the one from
the most specific (deepest) catalog that defines the field: the lookup
in each cache of the freshly constructed level equals the first hit of
the deepest-first catalog chain (`findSome?` over this catalog followed
by the ancestors' catalogs). -/
theorem c7_cache_construction (definition : Catalog) (data : Option Store) (parent : CC)
    (n : String)
    (hnd : ∀ cat ∈ definition :: parent.map Level.definition, (cat.map Prod.fst).Nodup) :
    ∃ lvl, CascadingConfig.init definition data parent = lvl :: parent ∧
      alookup lvl.defaults n
        = (definition :: parent.map Level.definition).findSome?
            (fun cat => (alookup cat n).bind Defn.default) ∧
      alookup lvl.validate_cache n
        = (definition :: parent.map Level.definition).findSome?
            (fun cat => (alookup cat n).bind Defn.validate) ∧
      alookup lvl.getter_cache n
        = (definition :: parent.map Level.definition).findSome?
            (fun cat => (alookup cat n).bind classify_getter) := by
  refine ⟨_, rfl, ?_, ?_, ?_⟩
  · exact build_definition_cache_spec (fun d => d.default) _ n hnd
  · exact build_definition_cache_spec (fun d => d.validate) _ n hnd
  · exact build_definition_cache_spec classify_getter _ n hnd

/-- The nested mapping held by a level for a cascading key: the stored
nested dict, or the empty mapping when the key is absent (the mapping
`setdefault` would create) or holds a non-dict value. -/
def nestedMap (lvl : Level) (k : String) : Store :=
  match alookup lvl.data k with
  | some (Val.dict s) => s
  | some _ => []
  | none => []

/-- Claim-side shape of a cascading view: this level's nested mapping
layered over the parent's same nested subdict, recursively; the root
level contributes the raw nested dict. -/
def specLayers : CC → String → CasView
  | [], _ => CasView.raw []
  | [lvl], k => CasView.raw (nestedMap lvl k)
  | lvl :: q :: qs, k => CasView.proxy (nestedMap lvl k) (specLayers (q :: qs) k)

theorem getitem_cons_level (genv : GetterEnv) (tenv : TransformEnv) (lvl : Level) (p : CC)
    (k : String) :
    ∃ PR, getitem genv tenv (lvl :: p) k = getitem_level genv tenv lvl p k PR ∧
      (p ≠ [] → PR = getitem genv tenv p k) ∧
      (p = [] → PR = (Except.error PyErr.keyError, [])) := by
  cases p with
  | nil =>
    exact ⟨(Except.error PyErr.keyError, []), rfl, fun h => absurd rfl h, fun _ => rfl⟩
  | cons q qs =>
    exact ⟨getitem genv tenv (q :: qs) k, rfl, fun _ => rfl,
      fun h => absurd h (List.cons_ne_nil q qs)⟩

theorem cascade_getter_parentless (lvl : Level) (k : String) :
    cascade_getter [lvl] k = cascade_level lvl [] k none := rfl

theorem cascade_getter_parented (lvl q : Level) (qs : CC) (k : String) :
    cascade_getter (lvl :: q :: qs) k
      = cascade_level lvl (q :: qs) k (some (cascade_getter (q :: qs) k)) := rfl

theorem cascade_layer_eq (lvl : Level) (k : String) :
    (match alookup (match alookup lvl.data k with
        | some _ => lvl.data
        | none => aset lvl.data k (Val.dict [])) k with
     | some (Val.dict s) => s
     | some _ => []
     | none => []) = nestedMap lvl k := by
  cases h : alookup lvl.data k with
  | some v => cases v <;> simp [nestedMap, h]
  | none => simp [nestedMap, h, alookup_aset]

theorem cascade_getter_hit (lvl : Level) (p : CC) (k : String) (cv : CasView)
    (h : alookup lvl.cascade_cache k = some cv) :
    cascade_getter (lvl :: p) k = (cv, lvl :: p) := by
  cases p with
  | nil => rw [cascade_getter_parentless]; simp [cascade_level, h]
  | cons q qs => rw [cascade_getter_parented]; simp [cascade_level, h]

theorem cascade_getter_fresh (c : CC) (k : String)
    (hfresh : ∀ l ∈ c, alookup l.cascade_cache k = none) :
    (cascade_getter c k).1 = specLayers c k := by
  induction c with
  | nil => rfl
  | cons lvl p ih =>
    have h1 : alookup lvl.cascade_cache k = none := hfresh lvl (List.mem_cons_self lvl p)
    cases p with
    | nil =>
      rw [cascade_getter_parentless]
      simp only [cascade_level, h1, specLayers]
      exact congrArg CasView.raw (cascade_layer_eq lvl k)
    | cons q qs =>
      rw [cascade_getter_parented]
      have ihp : (cascade_getter (q :: qs) k).1 = specLayers (q :: qs) k :=
        ih (fun l hl => hfresh l (List.mem_cons_of_mem lvl hl))
      cases hc : cascade_getter (q :: qs) k with
      | mk pv p2 =>
        rw [hc] at ihp
        simp only [cascade_level, h1, specLayers]
        rw [← ihp]
        exact congrArg (fun s => CasView.proxy s pv) (cascade_layer_eq lvl k)

theorem cascade_getter_state (lvl : Level) (p : CC) (k : String) :
    ∃ lvl2 p2, (cascade_getter (lvl :: p) k).2 = lvl2 :: p2 ∧
      lvl2.getter_cache = lvl.getter_cache ∧
      alookup lvl2.cascade_cache k = some (cascade_getter (lvl :: p) k).1 ∧
      (alookup lvl.cascade_cache k = none → alookup lvl.data k = none →
        alookup lvl2.data k = some (Val.dict [])) := by
  cases hcc : alookup lvl.cascade_cache k with
  | some cv =>
    rw [cascade_getter_hit lvl p k cv hcc]
    exact ⟨lvl, p, rfl, rfl, hcc, fun h _ => Option.noConfusion h⟩
  | none =>
    cases p with
    | nil =>
      rw [cascade_getter_parentless]
      simp only [cascade_level, hcc]
      refine ⟨_, _, rfl, rfl, ?_, ?_⟩
      · simp [alookup_aset]
      · intro _ hdata
        simp [hdata, alookup_aset]
    | cons q qs =>
      rw [cascade_getter_parented]
      cases hc : cascade_getter (q :: qs) k with
      | mk pv p2 =>
        simp only [cascade_level, hcc]
        refine ⟨_, _, rfl, rfl, ?_, ?_⟩
        · simp [alookup_aset]
        · intro _ hdata
          simp [hdata, alookup_aset]

theorem getitem_cascade (genv : GetterEnv) (tenv : TransformEnv) (lvl : Level) (p : CC)
    (k : String)
    (hcls : alookup lvl.getter_cache k = some SpecialGetter.cascadeG) :
    getitem genv tenv (lvl :: p) k
      = (Except.ok (RVal.view (cascade_getter (lvl :: p) k).1),
         (cascade_getter (lvl :: p) k).2) := by
  obtain ⟨PR, hgi, -, -⟩ := getitem_cons_level genv tenv lvl p k
  rw [hgi]
  simp only [getitem_level, hcls]

/-- C3. Reading a key whose definition marks it as cascading, on a
config with a parent and with no materialized view yet: the read returns
a Cascading Proxy layering this level's nested mapping over the parent's
same nested subdict chain (`specLayers`), the nested mapping is created
in the local data on first access if absent, and the view is cached so
that an immediately repeated read returns the very same view and leaves
the configuration state unchanged. -/
theorem c3_cascading_subdict (genv : GetterEnv) (tenv : TransformEnv) (lvl q : Level)
    (qs : CC) (k : String)
    (hcls : alookup lvl.getter_cache k = some SpecialGetter.cascadeG)
    (hfresh : ∀ l ∈ lvl :: q :: qs, alookup l.cascade_cache k = none) :
    (getitem genv tenv (lvl :: q :: qs) k).1
      = Except.ok (RVal.view (CasView.proxy (nestedMap lvl k) (specLayers (q :: qs) k))) ∧
    (∃ lvl2 p2, (getitem genv tenv (lvl :: q :: qs) k).2 = lvl2 :: p2 ∧
      (alookup lvl.data k = none → alookup lvl2.data k = some (Val.dict [])) ∧
      getitem genv tenv (lvl2 :: p2) k
        = ((getitem genv tenv (lvl :: q :: qs) k).1, lvl2 :: p2)) := by
  have hget := getitem_cascade genv tenv lvl (q :: qs) k hcls
  have hval : (cascade_getter (lvl :: q :: qs) k).1 = specLayers (lvl :: q :: qs) k :=
    cascade_getter_fresh (lvl :: q :: qs) k hfresh
  obtain ⟨lvl2, p2, hst, hgc, hcache, hdata⟩ := cascade_getter_state lvl (q :: qs) k
  constructor
  · rw [hget]
    simp only [hval, specLayers]
  · refine ⟨lvl2, p2, by rw [hget]; exact hst, ?_, ?_⟩
    · exact hdata (hfresh lvl (List.mem_cons_self lvl (q :: qs)))
    · have hcls2 : alookup lvl2.getter_cache k = some SpecialGetter.cascadeG := by
        rw [hgc]; exact hcls
      rw [getitem_cascade genv tenv lvl2 p2 k hcls2]
      rw [cascade_getter_hit lvl2 p2 k _ hcache, hget]

/-- Amended C4. For a key whose definition (this level's catalog entry)
supplies a transform function and whose getter cache entry is the
transform getter, with no special getters registered for the key in the
ancestors: if the key is stored anywhere in the cascade the read returns
the transform applied to `(self, key, raw cascaded value)`, recomputed
on the unchanged state (nothing is cached); if the key is absent from
the whole cascade the read returns the key's default, or Python `None`
when no default exists (the transform getter calls
`self.defaults.get(key, None)`, so it does not raise LookupMiss — this
is the amendment forced by the counterexample). -/
theorem c4_transform_amended (genv : GetterEnv) (tenv : TransformEnv) (lvl : Level) (p : CC)
    (k : String) (d0 : Defn) (t : TId)
    (hdef : alookup lvl.definition k = some d0)
    (ht : d0.transform = some t)
    (hcache : alookup lvl.getter_cache k = some SpecialGetter.transformG)
    (hanc : ∀ l ∈ p, alookup l.getter_cache k = none) :
    (∀ raw, chainThisLookup (lvl :: p) k = some raw →
        getitem genv tenv (lvl :: p) k
          = (Except.ok (RVal.val (tenv t (lvl :: p) k (RVal.val raw))), lvl :: p)) ∧
    (chainThisLookup (lvl :: p) k = none →
        getitem genv tenv (lvl :: p) k
          = (Except.ok (RVal.val ((alookup lvl.defaults k).getD Val.vnone)), lvl :: p)) := by
  obtain ⟨PR, hgi, hPRcons, hPRnil⟩ := getitem_cons_level genv tenv lvl p k
  constructor
  · intro raw hraw
    have hco : contains_ (lvl :: p) k = true := by
      rw [contains_eq_isSome, hraw]
      rfl
    rw [hgi]
    simp only [getitem_level, hcache, hco, if_true, hdef, ht]
    cases hv : alookup (Level.this lvl) k with
    | some v =>
      have hvr : v = raw := by
        simp only [chainThisLookup, hv] at hraw
        exact Option.some.inj hraw
      subst hvr
      simp [config_level, hv]
    | none =>
      have hchainp : chainThisLookup p k = some raw := by
        simpa only [chainThisLookup, hv] using hraw
      cases p with
      | nil => simp [chainThisLookup] at hchainp
      | cons q qs =>
        rw [hPRcons (List.cons_ne_nil q qs), getitem_plain genv tenv (q :: qs) k hanc]
        have hres : resolvePlain (q :: qs) k = Except.ok (RVal.val raw) := by
          unfold resolvePlain
          rw [hchainp]
        simp [config_level, hv, hres]
  · intro hnone
    have hco : contains_ (lvl :: p) k = false := by
      rw [contains_eq_isSome, hnone]
      rfl
    rw [hgi]
    simp [getitem_level, hcache, hco]

/-- Amended C10. Membership (`__contains__`) consults only the stores of
the chain, never the defaults cache: for every key with no special
getter that is stored at no level but has a default reachable through
the chained fallback, `contains` reports false while the read succeeds
and returns that default. (The amendment excludes keys with special
getters: a cascading key with a default returns the materialized view,
not the default, as the counterexample shows.) -/
theorem c10_contains_vs_defaults (genv : GetterEnv) (tenv : TransformEnv) (c : CC) (k : String)
    (d : Val)
    (hgetter : ∀ l ∈ c, alookup l.getter_cache k = none)
    (hstores : ∀ l ∈ c, alookup (Level.this l) k = none)
    (hd : defaultsFromRoot c k = some d) :
    contains_ c k = false ∧ getitem genv tenv c k = (Except.ok (RVal.val d), c) := by
  have hchain : chainThisLookup c k = none := chainThisLookup_none c k hstores
  constructor
  · rw [contains_eq_isSome, hchain]
    rfl
  · rw [getitem_plain genv tenv c k hgetter]
    unfold resolvePlain
    rw [hchain, hd]


/-! Concrete material used by the witnesses and counterexamples. -/

/-- A single-option catalog with a validator on `speed`. -/
def catSpeed : Catalog := [("speed", { validate := some 0 })]

/-- A fresh system-style config over `catSpeed`. -/
def ccSpeed : CC := CascadingConfig.init catSpeed none []

/-- A catalog whose single option `sub` cascades. -/
def catSub : Catalog := [("sub", { cascade := some true })]

/-- Parent level: `sub` holds the nested dict `{a: 1}`. -/
def subLvlParent : Level :=
  CascadingConfig.initLevel catSub (some [("sub", Val.dict [("a", Val.int 1)])]) []

/-- Parent chain for the cascading witness. -/
def ccSubParent : CC := [subLvlParent]

/-- Child level with an empty local store. -/
def subLvl : Level := CascadingConfig.initLevel catSub (some []) ccSubParent

/-- Child-over-parent chain for the cascading witness. -/
def ccSub : CC := subLvl :: ccSubParent

/-- A catalog whose single option `x` has a transform and no default. -/
def catTransform : Catalog := [("x", { transform := some 0 })]

/-- Level over `catTransform` with an empty store. -/
def transformLvl0 : Level := CascadingConfig.initLevel catTransform none []

/-- Parentless chain over `catTransform`, key absent everywhere. -/
def ccTransform0 : CC := [transformLvl0]

/-- Level over `catTransform` with `x = 3` stored. -/
def transformLvl3 : Level := CascadingConfig.initLevel catTransform (some [("x", Val.int 3)]) []

/-- Parentless chain over `catTransform` with `x = 3` stored. -/
def ccTransform3 : CC := [transformLvl3]

/-- Runner-style level storing `res = 7`. -/
def runnerLvl : Level := CascadingConfig.initLevel [] (some [("res", Val.int 7)]) []

/-- Runner-style parent chain. -/
def ccRunner : CC := [runnerLvl]

/-- Game-style level storing the shadowing override `res = 9`. -/
def gameLvl : Level := CascadingConfig.initLevel [] (some [("res", Val.int 9)]) ccRunner

/-- Game-over-runner chain for the deletion witness. -/
def ccGame : CC := gameLvl :: ccRunner

/-- A catalog marking `s` as cascading with a default. -/
def catCasDef : Catalog := [("s", { cascade := some true, default := some (Val.int 5) })]

/-- Parentless chain over `catCasDef`, nothing stored. -/
def ccCasDef : CC := CascadingConfig.init catCasDef none []

/-- A catalog with a plain defaulted option `resolution`. -/
def catRes : Catalog := [("resolution", { default := some (Val.str "native") })]

/-- Level over `catRes` with an empty store. -/
def resLvl : Level := CascadingConfig.initLevel catRes none []

/-- Parentless chain over `catRes`. -/
def ccRes : CC := [resLvl]

/-- Deeper catalog for the cache-shadowing witness: `a` defaults to 2. -/
def catChild : Catalog := [("a", { default := some (Val.int 2) })]

/-- Root catalog for the cache-shadowing witness: `a` defaults to 1. -/
def catParent : Catalog := [("a", { default := some (Val.int 1) })]

/-- Root chain over `catParent`. -/
def ccC7Parent : CC := CascadingConfig.init catParent none []

/-- TempGame-style level with a previously set local value. -/
def tempLvl : Level := CascadingConfig.initLevel [] (some [("res", Val.str "1080")]) ccRunner

/-- A facade holding the temp sentinel and the TempGame level. -/
def lcTemp : LutrisConfigS :=
  { game_config_id := some TEMP_CONFIG, game_level := GameLevelS.temp (tempLvl :: ccRunner) }

/-- A filesystem with no files. -/
def fsEmpty : String → Option Store := fun _ => none

/-- Witness for C2: the validator on `speed` rejects `-5` with
ValidationError and accepts `3`, which lands in the local store. -/
theorem c2_setitem_validation_witness :
    setitem venvNonneg ccSpeed "speed" (Val.int (-5)) = Except.error PyErr.valueError ∧
    setitem venvNonneg ccSpeed "speed" (Val.int 3)
      = Except.ok (CascadingConfig.init catSpeed (some [("speed", Val.int 3)]) []) := by
  constructor
  · exact (c2_setitem_validation venvNonneg _ _ "speed" (Val.int (-5))).1 0 rfl rfl
  · exact (c2_setitem_validation venvNonneg _ _ "speed" (Val.int 3)).2 (Or.inr ⟨0, rfl, rfl⟩)

/-- Witness for C3: reading `sub` on the child returns the proxy of the
empty child layer over the parent's `{a: 1}`, and the repeated read
returns the same view with the state unchanged. -/
theorem c3_cascading_subdict_witness :
    (getitem genvMiss tenvSucc ccSub "sub").1
      = Except.ok (RVal.view (CasView.proxy [] (CasView.raw [("a", Val.int 1)]))) ∧
    getitem genvMiss tenvSucc ((getitem genvMiss tenvSucc ccSub "sub").2) "sub"
      = ((getitem genvMiss tenvSucc ccSub "sub").1,
         (getitem genvMiss tenvSucc ccSub "sub").2) := by
  obtain ⟨h1, lvl2, p2, hst, hcreate, hrep⟩ :=
    c3_cascading_subdict genvMiss tenvSucc subLvl subLvlParent [] "sub" rfl
      (by
        intro l hl
        cases hl with
        | head => rfl
        | tail _ h2 =>
          cases h2 with
          | head => rfl
          | tail _ h3 => cases h3)
  constructor
  · exact h1.trans rfl
  · show getitem genvMiss tenvSucc
        (getitem genvMiss tenvSucc [subLvl, subLvlParent] "sub").2 "sub"
      = ((getitem genvMiss tenvSucc [subLvl, subLvlParent] "sub").1,
         (getitem genvMiss tenvSucc [subLvl, subLvlParent] "sub").2)
    rw [hst]
    exact hrep

/-- Counterexample for C4 as stated: `x` has a transform, no default,
and is absent from the entire cascade; the read succeeds with Python
`None` instead of failing with LookupMiss. -/
theorem c4_transform_counterexample :
    (getitem genvMiss tenvSucc ccTransform0 "x").1 = Except.ok (RVal.val Val.vnone) ∧
    (getitem genvMiss tenvSucc ccTransform0 "x").1 ≠ Except.error PyErr.keyError := by
  refine ⟨rfl, ?_⟩
  intro h
  exact Except.noConfusion
    ((rfl : (getitem genvMiss tenvSucc ccTransform0 "x").1
        = Except.ok (RVal.val Val.vnone)).symm.trans h)

/-- Witness for amended C4: with `x = 3` stored the transform (increment)
is applied giving 4; with `x` absent the read returns `None`. -/
theorem c4_transform_amended_witness :
    getitem genvMiss tenvSucc ccTransform3 "x"
      = (Except.ok (RVal.val (Val.int 4)), ccTransform3) ∧
    getitem genvMiss tenvSucc ccTransform0 "x"
      = (Except.ok (RVal.val Val.vnone), ccTransform0) := by
  constructor
  · exact (c4_transform_amended genvMiss tenvSucc transformLvl3 [] "x"
      { transform := some 0 } 0 rfl rfl rfl
      (fun l hl => absurd hl (List.not_mem_nil l))).1 (Val.int 3) rfl
  · exact (c4_transform_amended genvMiss tenvSucc transformLvl0 [] "x"
      { transform := some 0 } 0 rfl rfl rfl
      (fun l hl => absurd hl (List.not_mem_nil l))).2 rfl

/-- Witness for C6: deleting the Game-level `res = 9` override leaves
the Runner store untouched and the next Game-level read returns the
Runner's 7. -/
theorem c6_delete_local_witness :
    delitem ccGame "res" = Except.ok (CascadingConfig.init [] (some []) ccRunner) ∧
    getitem genvMiss tenvSucc (CascadingConfig.init [] (some []) ccRunner) "res"
      = (Except.ok (RVal.val (Val.int 7)), CascadingConfig.init [] (some []) ccRunner) := by
  constructor
  · exact (c6_delete_local genvMiss tenvSucc gameLvl ccRunner "res").2.1 rfl
  · exact (c6_delete_local genvMiss tenvSucc gameLvl ccRunner "res").2.2 (Val.int 7) rfl rfl
      (by
        intro l hl
        cases hl with
        | head => rfl
        | tail _ h2 =>
          cases h2 with
          | head => rfl
          | tail _ h3 => cases h3)

/-- Witness for C7: the child catalog's default for `a` (2) shadows the
root's (1) in the freshly built defaults cache. -/
theorem c7_cache_construction_witness :
    ∃ lvl, CascadingConfig.init catChild none ccC7Parent = lvl :: ccC7Parent ∧
      alookup lvl.defaults "a" = some (Val.int 2) := by
  obtain ⟨lvl, h1, h2, h3, h4⟩ :=
    c7_cache_construction catChild none ccC7Parent "a"
      (by
        intro cat hcat
        cases hcat with
        | head => decide
        | tail _ h2 =>
          cases h2 with
          | head => decide
          | tail _ h3 => cases h3)
  exact ⟨lvl, h1, h2.trans rfl⟩

/-- Witness for C8: assigning `halflife2-1730000000` to the temp facade
promotes it, preserving the TempGame's store, definition and parent; a
second assignment fails. -/
theorem c8_promotion_witness :
    ∃ g : GameConfigS,
      LutrisConfig.set_game_config_id fsEmpty lcTemp "halflife2-1730000000"
        = Except.ok { game_config_id := some "halflife2-1730000000"
                    , game_level := GameLevelS.perm g } ∧
      g.game_config_id = "halflife2-1730000000" ∧
      g.cc = CascadingConfig.init tempLvl.definition (some tempLvl.data) ccRunner ∧
      LutrisConfig.set_game_config_id fsEmpty
          { game_config_id := some "halflife2-1730000000", game_level := GameLevelS.perm g }
          "other"
        = Except.error PyErr.exception :=
  c8_promotion fsEmpty tempLvl ccRunner lcTemp "halflife2-1730000000" "other" rfl rfl
    (by decide)

/-- Witness for C9: a missing file behind `games/nope.yml` yields an
empty local store. -/
theorem c9_missing_file_empty_store_witness :
    (ConfigFile.init fsEmpty catRes "games/nope.yml" [] none).cc
      = CascadingConfig.init catRes none [] ∧
    ∃ lvl, (ConfigFile.init fsEmpty catRes "games/nope.yml" [] none).cc = lvl :: [] ∧
      lvl.data = [] :=
  c9_missing_file_empty_store fsEmpty catRes "games/nope.yml" [] rfl

/-- Counterexample for C10 as stated: `s` is cascading with default 5
and stored nowhere; `contains` is false, but the read returns the empty
materialized view, not the default. -/
theorem c10_contains_counterexample :
    contains_ ccCasDef "s" = false ∧
    (getitem genvMiss tenvSucc ccCasDef "s").1 = Except.ok (RVal.view (CasView.raw [])) ∧
    (getitem genvMiss tenvSucc ccCasDef "s").1 ≠ Except.ok (RVal.val (Val.int 5)) := by
  refine ⟨rfl, rfl, ?_⟩
  intro h
  exact RVal.noConfusion (Except.ok.inj
    ((rfl : (getitem genvMiss tenvSucc ccCasDef "s").1
        = Except.ok (RVal.view (CasView.raw []))).symm.trans h))

/-- Witness for amended C10: `resolution` has the default `native`, is
stored nowhere, `contains` is false and the read returns the default. -/
theorem c10_contains_vs_defaults_witness :
    contains_ ccRes "resolution" = false ∧
    getitem genvMiss tenvSucc ccRes "resolution"
      = (Except.ok (RVal.val (Val.str "native")), ccRes) :=
  c10_contains_vs_defaults genvMiss tenvSucc ccRes "resolution" (Val.str "native")
    (by
      intro l hl
      cases hl with
      | head => rfl
      | tail _ h2 => cases h2)
    (by
      intro l hl
      cases hl with
      | head => rfl
      | tail _ h2 => cases h2)
    rfl
